import Mathlib

/-!
# Verification of `05-objects-tasks.js`

Shallow embedding of the module's definitions:

* `Rectangle` — the rectangle constructor with its `getArea` method;
* `fromJSON` — prototype-based reconstruction from a parsed JSON value
  (`Object.assign(Object.create(proto), JSON.parse(json))`);
* `CssSelectorBuilder` — the CSS selector builder class, with its six
  add-operations (`element`, `id`, `class`, `attr`, `pseudoClass`,
  `pseudoElement`), `combine`, and `stringify`.

JavaScript semantics that matter here and how they are modelled:

* `Array.prototype.find(p)` returns the **first** matching element or
  `undefined`; modelled by `List.find?`, whose result is an `Option`.
* In JS, `undefined < n` and `undefined === n` are both `false` for a
  number `n`; comparisons of the `find` result are therefore modelled by
  `undefLt` (strictly-less with an `undefined`-able left operand) and by
  equality with `some n`.
* `throw new Error(msg)` is modelled by `Except.error msg`; the two
  distinct error messages of the source are kept verbatim.
* `arr.slice()` followed by `push` on the copy is modelled functionally
  as list append; an explicit array-store model (`ArrHeap`) is added
  further below to state the frame/no-mutation properties.
-/

/-- JS `x < n` where `x` is the result of `Array.prototype.find`:
`undefined < n` is `false`, otherwise numeric comparison. -/
def undefLt : Option Nat → Nat → Bool
  | none, _ => false
  | some x, n => decide (x < n)

/-- JS `x === n` where `x` is the result of `Array.prototype.find`:
`undefined === n` is `false`, otherwise numeric equality. -/
def undefEq : Option Nat → Nat → Bool
  | none, _ => false
  | some x, n => decide (x = n)

/-- Error message thrown for a repeated singleton category
(text kept verbatim from the source, including its typo). -/
def duplicateMsg : String :=
  "Element, id and pseudo-element should not occur more then one time inside the selector"

/-- Error message thrown for an order violation (verbatim from the source). -/
def orderMsg : String :=
  "Selector parts should be arranged in the following order: element, id, class, attribute, pseudo-class, pseudo-element"

/-- State of a `CssSelectorBuilder` instance: the constructor stores the two
arrays `callStack` (category ranks in call order) and `resultsArr`
(rendered selector fragments in call order). -/
structure CssSelectorBuilder where
  callStack : List Nat
  resultsArr : List String
deriving DecidableEq, Repr

namespace CssSelectorBuilder

/-- `element(value)`: checks `callStack.find(item => item <= 6)`,
throws the duplicate error on `=== 6`, the order error on `< 6`,
otherwise pushes `value` and rank 6 onto copies of the arrays. -/
def element (b : CssSelectorBuilder) (value : String) :
    Except String CssSelectorBuilder :=
  let checkCallStack := b.callStack.find? (fun item => item ≤ 6)
  if undefEq checkCallStack 6 then
    .error duplicateMsg
  else if undefLt checkCallStack 6 then
    .error orderMsg
  else
    .ok ⟨b.callStack ++ [6], b.resultsArr ++ [value]⟩

/-- `id(value)`: checks `callStack.find(item => item <= 5)`,
throws the duplicate error on `=== 5`, the order error on `< 5`,
otherwise pushes `"#" + value` and rank 5. -/
def id (b : CssSelectorBuilder) (value : String) :
    Except String CssSelectorBuilder :=
  let checkCallStack := b.callStack.find? (fun item => item ≤ 5)
  if undefEq checkCallStack 5 then
    .error duplicateMsg
  else if undefLt checkCallStack 5 then
    .error orderMsg
  else
    .ok ⟨b.callStack ++ [5], b.resultsArr ++ ["#" ++ value]⟩

/-- `class(value)`: checks `callStack.find(item => item < 4)`,
throws the order error on `< 4`, otherwise pushes `"." + value` and rank 4. -/
def «class» (b : CssSelectorBuilder) (value : String) :
    Except String CssSelectorBuilder :=
  let checkCallStack := b.callStack.find? (fun item => item < 4)
  if undefLt checkCallStack 4 then
    .error orderMsg
  else
    .ok ⟨b.callStack ++ [4], b.resultsArr ++ ["." ++ value]⟩

/-- `attr(value)`: checks `callStack.find(item => item < 3)`,
throws the order error on `< 3`, otherwise pushes `"[" + value + "]"`
and rank 3. -/
def attr (b : CssSelectorBuilder) (value : String) :
    Except String CssSelectorBuilder :=
  let checkCallStack := b.callStack.find? (fun item => item < 3)
  if undefLt checkCallStack 3 then
    .error orderMsg
  else
    .ok ⟨b.callStack ++ [3], b.resultsArr ++ ["[" ++ value ++ "]"]⟩

/-- `pseudoClass(value)`: checks `callStack.find(item => item < 2)`,
throws the order error on `< 2`, otherwise pushes `":" + value` and rank 2. -/
def pseudoClass (b : CssSelectorBuilder) (value : String) :
    Except String CssSelectorBuilder :=
  let checkCallStack := b.callStack.find? (fun item => item < 2)
  if undefLt checkCallStack 2 then
    .error orderMsg
  else
    .ok ⟨b.callStack ++ [2], b.resultsArr ++ [":" ++ value]⟩

/-- `pseudoElement(value)`: checks `callStack.find(item => item <= 1)`,
throws the duplicate error on `=== 1`, the order error on `< 1`,
otherwise pushes `"::" + value` and rank 1. -/
def pseudoElement (b : CssSelectorBuilder) (value : String) :
    Except String CssSelectorBuilder :=
  let checkCallStack := b.callStack.find? (fun item => item ≤ 1)
  if undefEq checkCallStack 1 then
    .error duplicateMsg
  else if undefLt checkCallStack 1 then
    .error orderMsg
  else
    .ok ⟨b.callStack ++ [1], b.resultsArr ++ ["::" ++ value]⟩

/-- `stringify()`: `this.resultsArr.join('')`. -/
def stringify (b : CssSelectorBuilder) : String :=
  String.join b.resultsArr

/-- `combine(selector1, combinator, selector2)`: pushes
`` `${selector1.stringify()} ${combinator} ${selector2.stringify()}` ``
onto a copy of `this.resultsArr` and returns
`new CssSelectorBuilder([], resultsArr)`. -/
def combine (b : CssSelectorBuilder) (selector1 : CssSelectorBuilder)
    (combinator : String) (selector2 : CssSelectorBuilder) :
    CssSelectorBuilder :=
  ⟨[], b.resultsArr ++
    [selector1.stringify ++ " " ++ combinator ++ " " ++ selector2.stringify]⟩

end CssSelectorBuilder

/-- `const cssSelectorBuilder = new CssSelectorBuilder();` —
the exported empty facade instance. -/
def cssSelectorBuilder : CssSelectorBuilder := ⟨[], []⟩

/-- The six add-operations of the builder, as abstract syntax: one
constructor per source method, carrying the raw string argument. -/
inductive SelOp where
  | element (value : String)
  | id (value : String)
  | «class» (value : String)
  | attr (value : String)
  | pseudoClass (value : String)
  | pseudoElement (value : String)
deriving DecidableEq, Repr

namespace SelOp

/-- The category rank an operation records on success (the number the
source pushes onto `callStack`). -/
def rank : SelOp → Nat
  | .element _ => 6
  | .id _ => 5
  | .«class» _ => 4
  | .attr _ => 3
  | .pseudoClass _ => 2
  | .pseudoElement _ => 1

/-- Whether the operation's category is a singleton kind
(element, id, pseudo-element). -/
def isSingleton : SelOp → Bool
  | .element _ => true
  | .id _ => true
  | .pseudoElement _ => true
  | _ => false

/-- The rendered fragment an operation pushes onto `resultsArr` on
success: the value with the category's syntax marker. -/
def render : SelOp → String
  | .element v => v
  | .id v => "#" ++ v
  | .«class» v => "." ++ v
  | .attr v => "[" ++ v ++ "]"
  | .pseudoClass v => ":" ++ v
  | .pseudoElement v => "::" ++ v

end SelOp

/-- Dispatch an abstract add-operation to the corresponding method. -/
def applyOp (b : CssSelectorBuilder) : SelOp → Except String CssSelectorBuilder
  | .element v => b.element v
  | .id v => b.id v
  | .«class» v => b.«class» v
  | .attr v => b.attr v
  | .pseudoClass v => b.pseudoClass v
  | .pseudoElement v => b.pseudoElement v

/-- Run a chain of add-operations left to right, stopping at the first
thrown error (JS exception propagation). -/
def applyOps (b : CssSelectorBuilder) : List SelOp → Except String CssSelectorBuilder
  | [] => .ok b
  | op :: rest =>
    match applyOp b op with
    | .ok b' => applyOps b' rest
    | .error e => .error e

/-- Builders reachable from the exported facade by successful operations:
the facade itself, any successful add-operation result, and any `combine`
of reachable builders. -/
inductive Reachable : CssSelectorBuilder → Prop where
  | init : Reachable cssSelectorBuilder
  | step (b : CssSelectorBuilder) (op : SelOp) (b' : CssSelectorBuilder) :
      Reachable b → applyOp b op = .ok b' → Reachable b'
  | comb (b s1 s2 : CssSelectorBuilder) (c : String) :
      Reachable b → Reachable s1 → Reachable s2 →
      Reachable (b.combine s1 c s2)

/-- The spec's §3 invariant on the recorded ranks: non-increasing in
append order, and each singleton rank (6, 5, 1) occurs at most once. -/
def GoodStack (l : List Nat) : Prop :=
  l.Pairwise (· ≥ ·) ∧ l.count 6 ≤ 1 ∧ l.count 5 ≤ 1 ∧ l.count 1 ≤ 1

instance (l : List Nat) : Decidable (GoodStack l) := by
  unfold GoodStack; infer_instance

-- Sanity checks against the source's documented examples.
example :
    (cssSelectorBuilder.id "main" >>= fun b => b.«class» "container" >>=
      fun b => b.«class» "editable").map CssSelectorBuilder.stringify =
    .ok "#main.container.editable" := rfl

example :
    (cssSelectorBuilder.element "a" >>= fun b => b.attr "href" >>=
      fun b => b.pseudoClass "focus").map CssSelectorBuilder.stringify =
    .ok "a[href]:focus" := rfl

example :
    (cssSelectorBuilder.element "div" >>= fun b => b.element "span") =
    .error duplicateMsg := rfl

example :
    (cssSelectorBuilder.id "x" >>= fun b => b.element "div") =
    .error orderMsg := rfl

/-! ## Characterisation of the `find`-based checks -/

/-- In a non-increasing list that contains `r`, the first element `≤ r`
is `r` itself (everything in front of it is strictly larger). -/
theorem find?_le_self_of_mem {l : List Nat} {r : Nat}
    (hp : l.Pairwise (· ≥ ·)) (h : r ∈ l) :
    l.find? (fun x => x ≤ r) = some r := by
  induction l with
  | nil => cases h
  | cons a t ih =>
    rw [List.pairwise_cons] at hp
    rcases List.mem_cons.mp h with rfl | ht
    · exact List.find?_cons_of_pos _ (by simp)
    · by_cases ha : a ≤ r
      · have hra : a ≥ r := hp.1 r ht
        have : a = r := le_antisymm ha hra
        subst this
        exact List.find?_cons_of_pos _ (by simp)
      · rw [List.find?_cons_of_neg _ (by simpa using ha)]
        exact ih hp.2 ht

/-- If `r` is absent but some element is `< r`, the first element `≤ r`
exists and is strictly below `r`. -/
theorem find?_le_some_lt {l : List Nat} {r : Nat}
    (h : r ∉ l) (hx : ∃ x ∈ l, x < r) :
    ∃ y, l.find? (fun x => x ≤ r) = some y ∧ y < r := by
  obtain ⟨x, hxl, hxr⟩ := hx
  cases hc : l.find? (fun x => x ≤ r) with
  | none =>
    rw [List.find?_eq_none] at hc
    exact absurd (by simpa using hc x hxl) (by simpa using Nat.le_of_lt hxr)
  | some y =>
    refine ⟨y, rfl, ?_⟩
    have hy : y ≤ r := by simpa using List.find?_some hc
    have hmem : y ∈ l := List.mem_of_find?_eq_some hc
    exact lt_of_le_of_ne hy (fun hyr => h (hyr ▸ hmem))

/-- If every element exceeds `r`, no element is `≤ r`. -/
theorem find?_le_none {l : List Nat} {r : Nat}
    (h : ∀ x ∈ l, r < x) :
    l.find? (fun x => x ≤ r) = none := by
  rw [List.find?_eq_none]
  intro x hx
  simpa using Nat.not_le.mpr (h x hx)

/-- If some element is `< r`, the first such element exists and is `< r`. -/
theorem find?_lt_some_lt {l : List Nat} {r : Nat}
    (hx : ∃ x ∈ l, x < r) :
    ∃ y, l.find? (fun x => x < r) = some y ∧ y < r := by
  obtain ⟨x, hxl, hxr⟩ := hx
  cases hc : l.find? (fun x => x < r) with
  | none =>
    rw [List.find?_eq_none] at hc
    exact absurd hxr (by simpa using hc x hxl)
  | some y =>
    exact ⟨y, rfl, by simpa using List.find?_some hc⟩

/-- If no element is `< r`, the search comes back empty. -/
theorem find?_lt_none {l : List Nat} {r : Nat}
    (h : ∀ x ∈ l, r ≤ x) :
    l.find? (fun x => x < r) = none := by
  rw [List.find?_eq_none]
  intro x hx
  simpa using Nat.not_lt.mpr (h x hx)

/-- A rank in the singleton set {6, 5, 1} belongs to a singleton operation. -/
theorem isSingleton_of_rank {op : SelOp}
    (h : op.rank = 6 ∨ op.rank = 5 ∨ op.rank = 1) :
    op.isSingleton = true := by
  cases op <;> simp [SelOp.rank, SelOp.isSingleton] at h ⊢

/-- Master specification of the six add-operations on a builder whose
recorded ranks are non-increasing: a singleton whose rank is already
recorded throws the duplicate error; otherwise a recorded rank strictly
below the new rank throws the order error; otherwise the call succeeds
and appends the rendered fragment and the rank. -/
theorem applyOp_spec (b : CssSelectorBuilder) (op : SelOp)
    (hp : b.callStack.Pairwise (· ≥ ·)) :
    applyOp b op =
      if op.isSingleton = true ∧ op.rank ∈ b.callStack then
        .error duplicateMsg
      else if ∃ x ∈ b.callStack, x < op.rank then
        .error orderMsg
      else
        .ok ⟨b.callStack ++ [op.rank], b.resultsArr ++ [op.render]⟩ := by
  obtain ⟨l, res⟩ := b
  simp only at hp
  cases op with
  | element v =>
    simp only [applyOp, CssSelectorBuilder.element, SelOp.isSingleton,
      SelOp.rank, SelOp.render, true_and]
    by_cases h6 : (6 : Nat) ∈ l
    · rw [find?_le_self_of_mem hp h6]
      simp [undefEq, h6]
    · by_cases hex : ∃ x ∈ l, x < 6
      · obtain ⟨y, hy, hylt⟩ := find?_le_some_lt h6 hex
        rw [hy]
        simp [undefEq, undefLt, Nat.ne_of_lt hylt, hylt, h6, hex]
      · push_neg at hex
        have hgt : ∀ x ∈ l, 6 < x := fun x hx =>
          lt_of_le_of_ne (hex x hx) (fun h => h6 (h ▸ hx))
        rw [find?_le_none hgt]
        have hnex : ¬ ∃ x ∈ l, x < 6 := by push_neg; exact hex
        simp [undefEq, undefLt, h6, hnex]
  | id v =>
    simp only [applyOp, CssSelectorBuilder.id, SelOp.isSingleton,
      SelOp.rank, SelOp.render, true_and]
    by_cases h5 : (5 : Nat) ∈ l
    · rw [find?_le_self_of_mem hp h5]
      simp [undefEq, h5]
    · by_cases hex : ∃ x ∈ l, x < 5
      · obtain ⟨y, hy, hylt⟩ := find?_le_some_lt h5 hex
        rw [hy]
        simp [undefEq, undefLt, Nat.ne_of_lt hylt, hylt, h5, hex]
      · push_neg at hex
        have hgt : ∀ x ∈ l, 5 < x := fun x hx =>
          lt_of_le_of_ne (hex x hx) (fun h => h5 (h ▸ hx))
        rw [find?_le_none hgt]
        have hnex : ¬ ∃ x ∈ l, x < 5 := by push_neg; exact hex
        simp [undefEq, undefLt, h5, hnex]
  | pseudoElement v =>
    simp only [applyOp, CssSelectorBuilder.pseudoElement, SelOp.isSingleton,
      SelOp.rank, SelOp.render, true_and]
    by_cases h1 : (1 : Nat) ∈ l
    · rw [find?_le_self_of_mem hp h1]
      simp [undefEq, h1]
    · by_cases hex : ∃ x ∈ l, x < 1
      · obtain ⟨y, hy, hylt⟩ := find?_le_some_lt h1 hex
        obtain ⟨x, hxl, hxlt⟩ := hex
        have hx0 : x = 0 := by omega
        have h0 : (0 : Nat) ∈ l := hx0 ▸ hxl
        rw [hy]
        simp [undefEq, undefLt, Nat.ne_of_lt hylt, hylt, h1, h0]
      · push_neg at hex
        have hgt : ∀ x ∈ l, 1 < x := fun x hx =>
          lt_of_le_of_ne (hex x hx) (fun h => h1 (h ▸ hx))
        have h0 : (0 : Nat) ∉ l := fun h => by have := hgt 0 h; omega
        rw [find?_le_none hgt]
        simp [undefEq, undefLt, h1, h0]
  | «class» v =>
    simp only [applyOp, CssSelectorBuilder.«class», SelOp.isSingleton,
      SelOp.rank, SelOp.render, Bool.false_eq_true, false_and, if_false]
    by_cases hex : ∃ x ∈ l, x < 4
    · obtain ⟨y, hy, hylt⟩ := find?_lt_some_lt hex
      rw [hy]
      simp [undefLt, hylt, hex]
    · push_neg at hex
      have hnex : ¬ ∃ x ∈ l, x < 4 := by push_neg; exact hex
      rw [find?_lt_none hex]
      simp [undefLt, hnex]
  | attr v =>
    simp only [applyOp, CssSelectorBuilder.attr, SelOp.isSingleton,
      SelOp.rank, SelOp.render, Bool.false_eq_true, false_and, if_false]
    by_cases hex : ∃ x ∈ l, x < 3
    · obtain ⟨y, hy, hylt⟩ := find?_lt_some_lt hex
      rw [hy]
      simp [undefLt, hylt, hex]
    · push_neg at hex
      have hnex : ¬ ∃ x ∈ l, x < 3 := by push_neg; exact hex
      rw [find?_lt_none hex]
      simp [undefLt, hnex]
  | pseudoClass v =>
    simp only [applyOp, CssSelectorBuilder.pseudoClass, SelOp.isSingleton,
      SelOp.rank, SelOp.render, Bool.false_eq_true, false_and, if_false]
    by_cases hex : ∃ x ∈ l, x < 2
    · obtain ⟨y, hy, hylt⟩ := find?_lt_some_lt hex
      rw [hy]
      simp [undefLt, hylt, hex]
    · push_neg at hex
      have hnex : ¬ ∃ x ∈ l, x < 2 := by push_neg; exact hex
      rw [find?_lt_none hex]
      simp [undefLt, hnex]

/-! ## The stack invariant -/

/-- A singleton operation's rank lies in {6, 5, 1}. -/
theorem rank_of_isSingleton {op : SelOp} (h : op.isSingleton = true) :
    op.rank = 6 ∨ op.rank = 5 ∨ op.rank = 1 := by
  cases op <;> simp [SelOp.rank, SelOp.isSingleton] at h ⊢

/-- A successful add-operation preserves the stack invariant. -/
theorem goodStack_preserved {b b' : CssSelectorBuilder} {op : SelOp}
    (hg : GoodStack b.callStack) (h : applyOp b op = .ok b') :
    GoodStack b'.callStack := by
  obtain ⟨hp, h6, h5, h1⟩ := hg
  rw [applyOp_spec b op hp] at h
  by_cases hdup : op.isSingleton = true ∧ op.rank ∈ b.callStack
  · rw [if_pos hdup] at h
    exact absurd h (by simp)
  · rw [if_neg hdup] at h
    by_cases hord : ∃ x ∈ b.callStack, x < op.rank
    · rw [if_pos hord] at h
      exact absurd h (by simp)
    · rw [if_neg hord] at h
      push_neg at hord
      have hb' := (Except.ok.inj h).symm
      subst hb'
      refine ⟨?_, ?_, ?_, ?_⟩
      · refine List.pairwise_append.mpr ⟨hp, by simp, ?_⟩
        intro a ha c hc
        rw [List.mem_singleton] at hc
        exact hc ▸ hord a ha
      · rw [List.count_append]
        by_cases hrk : op.rank = 6
        · have hmem : op.rank ∉ b.callStack :=
            fun hm => hdup ⟨isSingleton_of_rank (Or.inl hrk), hm⟩
          have hz : b.callStack.count 6 = 0 :=
            List.count_eq_zero.mpr (hrk ▸ hmem)
          simp [hz, hrk]
        · simp only [List.count_singleton']
          simp [hrk, h6, Ne.symm hrk]
      · rw [List.count_append]
        by_cases hrk : op.rank = 5
        · have hmem : op.rank ∉ b.callStack :=
            fun hm => hdup ⟨isSingleton_of_rank (Or.inr (Or.inl hrk)), hm⟩
          have hz : b.callStack.count 5 = 0 :=
            List.count_eq_zero.mpr (hrk ▸ hmem)
          simp [hz, hrk]
        · simp only [List.count_singleton']
          simp [hrk, h5, Ne.symm hrk]
      · rw [List.count_append]
        by_cases hrk : op.rank = 1
        · have hmem : op.rank ∉ b.callStack :=
            fun hm => hdup ⟨isSingleton_of_rank (Or.inr (Or.inr hrk)), hm⟩
          have hz : b.callStack.count 1 = 0 :=
            List.count_eq_zero.mpr (hrk ▸ hmem)
          simp [hz, hrk]
        · simp only [List.count_singleton']
          simp [hrk, h1, Ne.symm hrk]

/-- Every reachable builder satisfies the stack invariant. -/
theorem reachable_goodStack {b : CssSelectorBuilder} (h : Reachable b) :
    GoodStack b.callStack := by
  induction h with
  | init => simp [GoodStack, cssSelectorBuilder]
  | step b op b' hb hok ih => exact goodStack_preserved ih hok
  | comb b s1 s2 c hb hs1 hs2 ihb ihs1 ihs2 =>
    simp [GoodStack, CssSelectorBuilder.combine]

/-! ## Running a whole chain of valid calls -/

/-- If the existing stack extended by the chain's ranks satisfies the
invariant, the whole chain succeeds and appends, in order, the chain's
ranks and rendered fragments. -/
theorem applyOps_ok_of_good (ops : List SelOp) (b : CssSelectorBuilder)
    (h : GoodStack (b.callStack ++ ops.map SelOp.rank)) :
    applyOps b ops =
      .ok ⟨b.callStack ++ ops.map SelOp.rank,
           b.resultsArr ++ ops.map SelOp.render⟩ := by
  induction ops generalizing b with
  | nil => simp [applyOps]
  | cons op rest ih =>
    obtain ⟨hp, h6, h5, h1⟩ := h
    have hpb : b.callStack.Pairwise (· ≥ ·) :=
      (List.pairwise_append.mp hp).1
    have hord : ¬ ∃ x ∈ b.callStack, x < op.rank := by
      push_neg
      intro x hx
      exact (List.pairwise_append.mp hp).2.2 x hx op.rank (by simp)
    have hdup : ¬ (op.isSingleton = true ∧ op.rank ∈ b.callStack) := by
      rintro ⟨hs, hm⟩
      have hcnt : 2 ≤ (b.callStack ++ (op :: rest).map SelOp.rank).count op.rank := by
        rw [List.count_append]
        have hc1 : 1 ≤ b.callStack.count op.rank :=
          List.one_le_count_iff.mpr hm
        have hc2 : 1 ≤ ((op :: rest).map SelOp.rank).count op.rank :=
          List.one_le_count_iff.mpr (by simp)
        omega
      rcases rank_of_isSingleton hs with hr | hr | hr <;> rw [hr] at hcnt <;> omega
    have hstep : applyOp b op =
        .ok ⟨b.callStack ++ [op.rank], b.resultsArr ++ [op.render]⟩ := by
      rw [applyOp_spec b op hpb, if_neg hdup, if_neg hord]
    have hgood :
        GoodStack ((b.callStack ++ [op.rank]) ++ rest.map SelOp.rank) := by
      refine ⟨?_, ?_, ?_, ?_⟩ <;>
        simp only [List.append_assoc, List.singleton_append, List.map_cons] <;>
        first
          | exact hp
          | exact h6
          | exact h5
          | exact h1
    have := ih ⟨b.callStack ++ [op.rank], b.resultsArr ++ [op.render]⟩ hgood
    simp only [applyOps, hstep]
    simpa [List.append_assoc] using this

/-! ## Claim C1: valid chains succeed and stringify by concatenation -/

/-- **C1.** For every chain of add-operation calls starting from the empty
facade whose category ranks are non-increasing in call order and whose
singleton ranks (element = 6, id = 5, pseudo-element = 1) each occur at
most once, every call succeeds, and `stringify()` on the final builder is
the concatenation, in call order with no separators, of each fragment's
rendered form (element unprefixed, `#`+value, `.`+value, `[`+value+`]`,
`:`+value, `::`+value). -/
theorem C1_valid_chains (ops : List SelOp)
    (hord : (ops.map SelOp.rank).Pairwise (· ≥ ·))
    (h6 : (ops.map SelOp.rank).count 6 ≤ 1)
    (h5 : (ops.map SelOp.rank).count 5 ≤ 1)
    (h1 : (ops.map SelOp.rank).count 1 ≤ 1) :
    applyOps cssSelectorBuilder ops =
      .ok ⟨ops.map SelOp.rank, ops.map SelOp.render⟩ ∧
    CssSelectorBuilder.stringify ⟨ops.map SelOp.rank, ops.map SelOp.render⟩ =
      String.join (ops.map SelOp.render) := by
  refine ⟨?_, rfl⟩
  have hg : GoodStack (cssSelectorBuilder.callStack ++ ops.map SelOp.rank) := by
    show GoodStack ([] ++ ops.map SelOp.rank)
    rw [List.nil_append]
    exact ⟨hord, h6, h5, h1⟩
  have h := applyOps_ok_of_good ops cssSelectorBuilder hg
  simpa [cssSelectorBuilder] using h

/-- Witness for C1: a full seven-call chain exercising every category once
(and `class` twice) succeeds and renders `a#m.c1.c2[x]:p::q`. -/
theorem C1_valid_chains_witness :
    applyOps cssSelectorBuilder
        [SelOp.element "a", SelOp.id "m", SelOp.«class» "c1",
         SelOp.«class» "c2", SelOp.attr "x", SelOp.pseudoClass "p",
         SelOp.pseudoElement "q"] =
      .ok ⟨[SelOp.element "a", SelOp.id "m", SelOp.«class» "c1",
            SelOp.«class» "c2", SelOp.attr "x", SelOp.pseudoClass "p",
            SelOp.pseudoElement "q"].map SelOp.rank,
           [SelOp.element "a", SelOp.id "m", SelOp.«class» "c1",
            SelOp.«class» "c2", SelOp.attr "x", SelOp.pseudoClass "p",
            SelOp.pseudoElement "q"].map SelOp.render⟩ ∧
    CssSelectorBuilder.stringify
        ⟨[SelOp.element "a", SelOp.id "m", SelOp.«class» "c1",
          SelOp.«class» "c2", SelOp.attr "x", SelOp.pseudoClass "p",
          SelOp.pseudoElement "q"].map SelOp.rank,
         [SelOp.element "a", SelOp.id "m", SelOp.«class» "c1",
          SelOp.«class» "c2", SelOp.attr "x", SelOp.pseudoClass "p",
          SelOp.pseudoElement "q"].map SelOp.render⟩ =
      String.join
        ([SelOp.element "a", SelOp.id "m", SelOp.«class» "c1",
          SelOp.«class» "c2", SelOp.attr "x", SelOp.pseudoClass "p",
          SelOp.pseudoElement "q"].map SelOp.render) :=
  C1_valid_chains
    [SelOp.element "a", SelOp.id "m", SelOp.«class» "c1",
     SelOp.«class» "c2", SelOp.attr "x", SelOp.pseudoClass "p",
     SelOp.pseudoElement "q"]
    (by decide) (by decide) (by decide) (by decide)

/-! ## Claim C6: the reachable-state invariant -/

/-- **C6.** Every builder reachable from the empty facade by successful
operations has a non-increasing sequence of recorded ranks in which each
singleton rank (6 for element, 5 for id, 1 for pseudo-element) occurs at
most once, and the invariant is preserved by all seven operations: every
successful add-operation and every `combine` starting from such a builder
yields a builder satisfying it again. -/
theorem C6_invariant (b : CssSelectorBuilder) (hb : Reachable b) :
    GoodStack b.callStack ∧
    (∀ op b', applyOp b op = .ok b' → GoodStack b'.callStack) ∧
    (∀ s1 c s2, GoodStack (b.combine s1 c s2).callStack) := by
  refine ⟨reachable_goodStack hb,
    fun op b' h => goodStack_preserved (reachable_goodStack hb) h,
    fun s1 c s2 => ?_⟩
  simp [GoodStack, CssSelectorBuilder.combine]

/-- Witness for C6 at the exported facade itself. -/
theorem C6_invariant_witness :
    GoodStack cssSelectorBuilder.callStack ∧
    (∀ op b', applyOp cssSelectorBuilder op = .ok b' →
      GoodStack b'.callStack) ∧
    (∀ s1 c s2,
      GoodStack (cssSelectorBuilder.combine s1 c s2).callStack) :=
  C6_invariant cssSelectorBuilder Reachable.init

/-! ## Claim C2: which error an out-of-order call raises -/

/-- The builder `element('a').class('x')`, with ranks `[6, 4]`, is
reachable from the facade. -/
theorem reachable_ex64 : Reachable ⟨[6, 4], ["a", ".x"]⟩ :=
  Reachable.step ⟨[6], ["a"]⟩ (SelOp.«class» "x") ⟨[6, 4], ["a", ".x"]⟩
    (Reachable.step cssSelectorBuilder (SelOp.element "a") ⟨[6], ["a"]⟩
      Reachable.init rfl)
    rfl

/-- **C2 counterexample.** `element('a').class('x')` succeeds, and the
subsequent `element('b')` — whose rank 6 strictly exceeds the rank 4 of
the already-succeeded `class` call — fails with the duplicate-category
error, not the order-violation error (the two messages differ), refuting
the claim as stated. -/
theorem C2_counterexample :
    applyOps cssSelectorBuilder [SelOp.element "a", SelOp.«class» "x"] =
      .ok ⟨[6, 4], ["a", ".x"]⟩ ∧
    CssSelectorBuilder.element ⟨[6, 4], ["a", ".x"]⟩ "b" =
      .error duplicateMsg ∧
    duplicateMsg ≠ orderMsg := by
  refine ⟨rfl, rfl, ?_⟩
  decide

/-- **C2 (amended).** On a reachable builder that already records a rank
strictly below the new category's rank, the add-operation fails: with the
duplicate-category error when the new category is a singleton whose rank
is already recorded, and with the order-violation error otherwise.
Moreover the order-violation error is raised in no other situation: it
implies that some recorded rank is strictly below the new category's
rank. -/
theorem C2_order_amended (b : CssSelectorBuilder) (op : SelOp)
    (hb : Reachable b) :
    ((∃ x ∈ b.callStack, x < op.rank) →
      if op.isSingleton = true ∧ op.rank ∈ b.callStack then
        applyOp b op = .error duplicateMsg
      else
        applyOp b op = .error orderMsg) ∧
    (applyOp b op = .error orderMsg →
      ∃ x ∈ b.callStack, x < op.rank) := by
  have hp := (reachable_goodStack hb).1
  rw [applyOp_spec b op hp]
  constructor
  · intro hex
    by_cases hdup : op.isSingleton = true ∧ op.rank ∈ b.callStack
    · rw [if_pos hdup, if_pos hdup]
    · rw [if_neg hdup, if_neg hdup, if_pos hex]
  · intro h
    by_cases hdup : op.isSingleton = true ∧ op.rank ∈ b.callStack
    · rw [if_pos hdup] at h
      exact absurd (Except.error.inj h) (by decide)
    · rw [if_neg hdup] at h
      by_cases hex : ∃ x ∈ b.callStack, x < op.rank
      · exact hex
      · rw [if_neg hex] at h
        exact absurd h (by simp)

/-- Witness for the amended C2 at `element('a').class('x')` followed by
`element('b')`: the duplicate branch of the amended statement applies. -/
theorem C2_order_amended_witness :
    ((∃ x ∈ (CssSelectorBuilder.mk [6, 4] ["a", ".x"]).callStack,
        x < SelOp.rank (SelOp.element "b")) →
      if SelOp.isSingleton (SelOp.element "b") = true ∧
          SelOp.rank (SelOp.element "b") ∈
            (CssSelectorBuilder.mk [6, 4] ["a", ".x"]).callStack then
        applyOp ⟨[6, 4], ["a", ".x"]⟩ (SelOp.element "b") =
          .error duplicateMsg
      else
        applyOp ⟨[6, 4], ["a", ".x"]⟩ (SelOp.element "b") =
          .error orderMsg) ∧
    (applyOp ⟨[6, 4], ["a", ".x"]⟩ (SelOp.element "b") = .error orderMsg →
      ∃ x ∈ (CssSelectorBuilder.mk [6, 4] ["a", ".x"]).callStack,
        x < SelOp.rank (SelOp.element "b")) :=
  C2_order_amended ⟨[6, 4], ["a", ".x"]⟩ (SelOp.element "b") reachable_ex64

/-! ## Claim C3: duplicates of singletons fail, repeats of the rest do not -/

/-- **C3.** On a reachable builder, a singleton operation (element, id,
pseudoElement) whose rank is already recorded — in particular its second
invocation in an otherwise rank-valid chain — fails with the
duplicate-category error, while a non-singleton operation (class, attr,
pseudoClass) succeeds and appends another fragment whenever no recorded
rank is strictly below its own, so its repetitions in a rank-valid chain
never fail. -/
theorem C3_singleton_duplicates (b : CssSelectorBuilder) (op : SelOp)
    (hb : Reachable b) :
    (op.isSingleton = true → op.rank ∈ b.callStack →
      applyOp b op = .error duplicateMsg) ∧
    (op.isSingleton = false → (∀ x ∈ b.callStack, op.rank ≤ x) →
      applyOp b op =
        .ok ⟨b.callStack ++ [op.rank], b.resultsArr ++ [op.render]⟩) := by
  have hp := (reachable_goodStack hb).1
  rw [applyOp_spec b op hp]
  constructor
  · intro hs hm
    rw [if_pos ⟨hs, hm⟩]
  · intro hs hall
    have hdup : ¬ (op.isSingleton = true ∧ op.rank ∈ b.callStack) := by
      simp [hs]
    have hex : ¬ ∃ x ∈ b.callStack, x < op.rank := by
      push_neg
      exact hall
    rw [if_neg hdup, if_neg hex]

/-- Witness for C3 at `element('a').class('x')` with a repeated `class`:
the singleton clause is vacuous and the repetition clause applies. -/
theorem C3_singleton_duplicates_witness :
    (SelOp.isSingleton (SelOp.«class» "y") = true →
      SelOp.rank (SelOp.«class» "y") ∈
        (CssSelectorBuilder.mk [6, 4] ["a", ".x"]).callStack →
      applyOp ⟨[6, 4], ["a", ".x"]⟩ (SelOp.«class» "y") =
        .error duplicateMsg) ∧
    (SelOp.isSingleton (SelOp.«class» "y") = false →
      (∀ x ∈ (CssSelectorBuilder.mk [6, 4] ["a", ".x"]).callStack,
        SelOp.rank (SelOp.«class» "y") ≤ x) →
      applyOp ⟨[6, 4], ["a", ".x"]⟩ (SelOp.«class» "y") =
        .ok ⟨(CssSelectorBuilder.mk [6, 4] ["a", ".x"]).callStack ++
               [SelOp.rank (SelOp.«class» "y")],
             (CssSelectorBuilder.mk [6, 4] ["a", ".x"]).resultsArr ++
               [SelOp.render (SelOp.«class» "y")]⟩) :=
  C3_singleton_duplicates ⟨[6, 4], ["a", ".x"]⟩ (SelOp.«class» "y")
    reachable_ex64

/-! ## Claim C4: the duplicate check takes precedence -/

/-- **C4.** On a reachable builder whose recorded ranks contain both a rank
equal to the singleton category's own rank and a rank strictly below it,
the singleton add-operation raises the duplicate-category error: the
duplicate check takes precedence over the order-violation check. -/
theorem C4_duplicate_precedence (b : CssSelectorBuilder) (op : SelOp)
    (hb : Reachable b) (hs : op.isSingleton = true)
    (hmem : op.rank ∈ b.callStack)
    (_hlow : ∃ x ∈ b.callStack, x < op.rank) :
    applyOp b op = .error duplicateMsg := by
  rw [applyOp_spec b op (reachable_goodStack hb).1, if_pos ⟨hs, hmem⟩]

/-- Witness for C4: on `element('a').class('x')` (ranks `[6, 4]`, holding
rank 6 and the lower rank 4), `element('b')` raises the duplicate error. -/
theorem C4_duplicate_precedence_witness :
    applyOp ⟨[6, 4], ["a", ".x"]⟩ (SelOp.element "b") =
      .error duplicateMsg :=
  C4_duplicate_precedence ⟨[6, 4], ["a", ".x"]⟩ (SelOp.element "b")
    reachable_ex64 (by decide) (by decide) ⟨4, by decide, by decide⟩

/-! ## Claims C7 and C9: `combine` -/

/-- Joining a one-element list of strings gives back the string. -/
theorem join_singleton (s : String) : String.join [s] = s := by
  cases s
  rfl

/-- **C7.** Invoking `combine(a, c, b)` on the exported empty facade never
fails (it is a total operation), produces a builder holding exactly the
single fragment `a.stringify() + " " + c + " " + b.stringify()` and an
empty category history, so its `stringify()` equals that concatenation,
and the resulting builder accepts any subsequent add-operation regardless
of `a`'s or `b`'s recorded categories. -/
theorem C7_combine_facade (a b : CssSelectorBuilder) (c : String) :
    (cssSelectorBuilder.combine a c b).resultsArr =
      [a.stringify ++ " " ++ c ++ " " ++ b.stringify] ∧
    (cssSelectorBuilder.combine a c b).callStack = [] ∧
    (cssSelectorBuilder.combine a c b).stringify =
      a.stringify ++ " " ++ c ++ " " ++ b.stringify ∧
    ∀ op : SelOp, ∃ b',
      applyOp (cssSelectorBuilder.combine a c b) op = .ok b' := by
  refine ⟨rfl, rfl, ?_, ?_⟩
  · show String.join ([] ++ [_]) = _
    rw [List.nil_append]
    exact join_singleton _
  · intro op
    have hp : (cssSelectorBuilder.combine a c b).callStack.Pairwise
        (· ≥ ·) := by
      simp [CssSelectorBuilder.combine]
    have h1 : ¬ (op.isSingleton = true ∧
        op.rank ∈ (cssSelectorBuilder.combine a c b).callStack) := by
      simp [CssSelectorBuilder.combine]
    have h2 : ¬ ∃ x ∈ (cssSelectorBuilder.combine a c b).callStack,
        x < op.rank := by
      simp [CssSelectorBuilder.combine]
    exact ⟨_, by rw [applyOp_spec _ op hp, if_neg h1, if_neg h2]⟩

/-- **C9.** When `combine` is invoked on a builder whose fragment list is
non-empty (mid-chain rather than on the exported facade), the result's
fragments are the receiver's fragments followed by the single combined
string — so the result holds more than one fragment — while its category
history is still reset to empty. -/
theorem C9_combine_midchain (r a b : CssSelectorBuilder) (c : String)
    (h : r.resultsArr ≠ []) :
    (r.combine a c b).resultsArr =
      r.resultsArr ++ [a.stringify ++ " " ++ c ++ " " ++ b.stringify] ∧
    1 < (r.combine a c b).resultsArr.length ∧
    (r.combine a c b).callStack = [] := by
  refine ⟨rfl, ?_, rfl⟩
  show 1 < (r.resultsArr ++ [_]).length
  rw [List.length_append]
  have := List.length_pos.mpr h
  simp only [List.length_singleton]
  omega

/-- Witness for C9: combining on the mid-chain builder `element('a')`
keeps its fragment in front of the combined string. -/
theorem C9_combine_midchain_witness :
    ((CssSelectorBuilder.mk [6] ["a"]).combine cssSelectorBuilder "+"
        cssSelectorBuilder).resultsArr =
      (CssSelectorBuilder.mk [6] ["a"]).resultsArr ++
        [cssSelectorBuilder.stringify ++ " " ++ "+" ++ " " ++
          cssSelectorBuilder.stringify] ∧
    1 < ((CssSelectorBuilder.mk [6] ["a"]).combine cssSelectorBuilder "+"
        cssSelectorBuilder).resultsArr.length ∧
    ((CssSelectorBuilder.mk [6] ["a"]).combine cssSelectorBuilder "+"
        cssSelectorBuilder).callStack = [] :=
  C9_combine_midchain ⟨[6], ["a"]⟩ cssSelectorBuilder cssSelectorBuilder "+"
    (by decide)

/-! ## Claim C8: the Rectangle constructor -/

/-- `function Rectangle(width, height)` stores both fields on the object;
numeric values are modelled as integers (the claim concerns field
plumbing, not floating-point rounding). -/
structure Rectangle where
  width : Int
  height : Int
deriving DecidableEq, Repr

/-- `new Rectangle(width, height)`: `this.width = width;
this.height = height;`. -/
def Rectangle.make (width height : Int) : Rectangle := ⟨width, height⟩

/-- `this.getArea = () => this.width * this.height` — a zero-argument
function reading the receiver's current fields at each call. -/
def Rectangle.getArea (r : Rectangle) : Int := r.width * r.height

/-- **C8.** The constructor exposes a `width` field equal to `width`, a
`height` field equal to `height`, and `getArea()` returns
`width × height` computed from the current field values on each call: if
a field is reassigned after construction, a later `getArea()` call
returns the product of the updated values. -/
theorem C8_rectangle (width height w2 h2 : Int) :
    (Rectangle.make width height).width = width ∧
    (Rectangle.make width height).height = height ∧
    (Rectangle.make width height).getArea = width * height ∧
    ({ Rectangle.make width height with width := w2 }).getArea =
      w2 * height ∧
    ({ Rectangle.make width height with height := h2 }).getArea =
      width * h2 :=
  ⟨rfl, rfl, rfl, rfl, rfl⟩

/-! ## Claim C10: `fromJSON` on primitive JSON values -/

/-- Values a JSON text can parse to. -/
inductive JsonValue where
  | null
  | bool (b : Bool)
  | num (n : Int)
  | str (s : String)
  | arr (elems : List JsonValue)
  | obj (fields : List (String × JsonValue))

/-- Own enumerable key/value pairs `Object.assign` copies from
`ToObject(v)` for a parsed JSON value `v`: none for `null`, numbers and
booleans (their wrapper objects have no own enumerable properties),
index-keyed entries for strings and arrays, and the fields themselves for
plain objects. -/
def JsonValue.ownEnumerableProps : JsonValue → List (String × JsonValue)
  | .null => []
  | .bool _ => []
  | .num _ => []
  | .str s =>
    s.toList.enum.map (fun p => (toString p.1, .str (String.singleton p.2)))
  | .arr l => l.enum.map (fun p => (toString p.1, p.2))
  | .obj fs => fs

/-- The observable result of `Object.assign(Object.create(proto), v)`:
an object with prototype `proto` and the listed own properties. -/
structure JsObject (π : Type) where
  proto : π
  ownProps : List (String × JsonValue)

/-- `fromJSON(proto, json)` =
`Object.assign(Object.create(proto), JSON.parse(json))`, modelled at the
level of the parsed value: a fresh object whose prototype is `proto` and
whose own properties are exactly those `Object.assign` copies from the
parsed value. -/
def fromJSON (π : Type) (proto : π) (parsed : JsonValue) : JsObject π :=
  { proto := proto, ownProps := parsed.ownEnumerableProps }

/-- **C10.** For every prototype and every JSON text parsing to `null`, a
number, or a boolean (not an object, array, or string), `fromJSON`
returns without error a fresh object whose prototype is the given one and
which has no own properties: assigning a primitive or null source copies
no key/value pairs. -/
theorem C10_fromJSON_primitive (π : Type) (proto : π) (v : JsonValue)
    (h : v = .null ∨ (∃ n, v = .num n) ∨ (∃ bl, v = .bool bl)) :
    (fromJSON π proto v).proto = proto ∧
    (fromJSON π proto v).ownProps = [] := by
  refine ⟨rfl, ?_⟩
  rcases h with rfl | ⟨n, rfl⟩ | ⟨bl, rfl⟩ <;> rfl

/-- Witness for C10 at the number literal `42` with a numeric prototype. -/
theorem C10_fromJSON_primitive_witness :
    (fromJSON Nat 0 (JsonValue.num 42)).proto = 0 ∧
    (fromJSON Nat 0 (JsonValue.num 42)).ownProps = [] :=
  C10_fromJSON_primitive Nat 0 (JsonValue.num 42)
    (Or.inr (Or.inl ⟨42, rfl⟩))

/-! ## Claim C5: no mutation of the receiver (array-store model)

The pure embedding above cannot even express mutation, so the frame claim
is stated over an explicit store of arrays. Every builder instance holds
two references into the store. Each source method begins with
`this.callStack.slice()` / `this.resultsArr.slice()` (reads that copy the
cell contents), performs the check and the pushes on the local copies —
exactly the computation of the pure embedding — and, only on the success
path, reaches `new CssSelectorBuilder(callStack, resultsArr)`, which
registers the two copies as fresh cells. The receiver's cells are never
assigned; a `throw` happens before the `new`, so a failing call registers
nothing (the two unreferenced slice copies are unobservable garbage and
are omitted). -/

/-- Store of allocated arrays: `callStack` arrays and `resultsArr` arrays,
addressed by index. -/
structure ArrHeap where
  callStacks : List (List Nat)
  results : List (List String)

/-- A builder instance as a pair of references into the store. -/
structure BuilderRef where
  cs : Nat
  rs : Nat

/-- Read a `callStack` cell. -/
def ArrHeap.getCS (h : ArrHeap) (i : Nat) : List Nat :=
  h.callStacks.getD i []

/-- Read a `resultsArr` cell. -/
def ArrHeap.getRS (h : ArrHeap) (i : Nat) : List String :=
  h.results.getD i []

/-- `stringify()` through a reference: a pure read of the referenced
`resultsArr` cell. -/
def stringifyH (h : ArrHeap) (b : BuilderRef) : String :=
  String.join (h.getRS b.rs)

/-- An add-operation in the store model: read the receiver's two arrays,
compute exactly as the source method does (the pure embedding), and on
success allocate the two pushed copies and return a reference to them; on
failure the `throw` precedes the `new`, so the store is returned
unchanged. -/
def applyOpH (h : ArrHeap) (b : BuilderRef) (op : SelOp) :
    ArrHeap × Except String BuilderRef :=
  match applyOp ⟨h.getCS b.cs, h.getRS b.rs⟩ op with
  | .error e => (h, .error e)
  | .ok b' =>
    (⟨h.callStacks ++ [b'.callStack], h.results ++ [b'.resultsArr]⟩,
     .ok ⟨h.callStacks.length, h.results.length⟩)

/-- `combine` in the store model: read `this.resultsArr`, render the two
operands through their own cells, push the combined string onto the copy,
and allocate a fresh instance with an empty `callStack`. -/
def combineH (h : ArrHeap) (b s1 : BuilderRef) (c : String)
    (s2 : BuilderRef) : ArrHeap × BuilderRef :=
  (⟨h.callStacks ++ [[]],
    h.results ++
      [h.getRS b.rs ++ [stringifyH h s1 ++ " " ++ c ++ " " ++ stringifyH h s2]]⟩,
   ⟨h.callStacks.length, h.results.length⟩)

/-- The second store preserves every cell of the first (it may only have
allocated new cells). -/
def HeapExtends (h h' : ArrHeap) : Prop :=
  (∀ i, i < h.callStacks.length → h'.getCS i = h.getCS i) ∧
  (∀ i, i < h.results.length → h'.getRS i = h.getRS i)

/-- Appending freshly allocated cells preserves all existing cells. -/
theorem heapExtends_append (h : ArrHeap) (xs : List (List Nat))
    (ys : List (List String)) :
    HeapExtends h ⟨h.callStacks ++ xs, h.results ++ ys⟩ := by
  constructor <;> intro i hi
  · exact List.getD_append _ _ _ _ hi
  · exact List.getD_append _ _ _ _ hi

/-- A store extends itself. -/
theorem heapExtends_refl (h : ArrHeap) : HeapExtends h h :=
  ⟨fun _ _ => rfl, fun _ _ => rfl⟩

/-- **C5.** No operation mutates the builder it is invoked on: in the
array-store model, each of the six add-operations and `combine` preserves
every pre-existing cell (they return freshly allocated instances), a
failing add-operation leaves the store entirely unchanged (the throw
happens before any new builder is constructed), and after any of these
calls the pre-existing receiver still stringifies to the same string —
and, since every operation only reads existing cells, can equally be
extended and combined afterwards. -/
theorem C5_no_mutation (h : ArrHeap) (b s1 s2 : BuilderRef) (op : SelOp)
    (c : String) :
    HeapExtends h (applyOpH h b op).1 ∧
    (∀ e, (applyOpH h b op).2 = .error e → (applyOpH h b op).1 = h) ∧
    (b.rs < h.results.length →
      stringifyH (applyOpH h b op).1 b = stringifyH h b) ∧
    HeapExtends h (combineH h b s1 c s2).1 ∧
    (b.rs < h.results.length →
      stringifyH (combineH h b s1 c s2).1 b = stringifyH h b) := by
  have hcomb : HeapExtends h (combineH h b s1 c s2).1 :=
    heapExtends_append h _ _
  have hadd : HeapExtends h (applyOpH h b op).1 := by
    unfold applyOpH
    cases applyOp ⟨h.getCS b.cs, h.getRS b.rs⟩ op with
    | error e => exact heapExtends_refl h
    | ok b' => exact heapExtends_append h _ _
  refine ⟨hadd, ?_, ?_, hcomb, ?_⟩
  · intro e he
    unfold applyOpH at he ⊢
    revert he
    cases applyOp ⟨h.getCS b.cs, h.getRS b.rs⟩ op with
    | error e2 => intro he; rfl
    | ok b' => intro he; exact Except.noConfusion he
  · intro hlt
    unfold stringifyH
    rw [hadd.2 b.rs hlt]
  · intro hlt
    unfold stringifyH
    rw [hcomb.2 b.rs hlt]

/-- Witness for C5: a store holding the builder `element('a')`, on which
`element('b')` fails and `combine` allocates freshly. -/
theorem C5_no_mutation_witness :
    HeapExtends ⟨[[6]], [["a"]]⟩
      (applyOpH ⟨[[6]], [["a"]]⟩ ⟨0, 0⟩ (SelOp.element "b")).1 ∧
    (∀ e, (applyOpH ⟨[[6]], [["a"]]⟩ ⟨0, 0⟩ (SelOp.element "b")).2 =
        .error e →
      (applyOpH ⟨[[6]], [["a"]]⟩ ⟨0, 0⟩ (SelOp.element "b")).1 =
        ⟨[[6]], [["a"]]⟩) ∧
    (BuilderRef.rs ⟨0, 0⟩ < List.length [["a"]] →
      stringifyH (applyOpH ⟨[[6]], [["a"]]⟩ ⟨0, 0⟩ (SelOp.element "b")).1
          ⟨0, 0⟩ =
        stringifyH ⟨[[6]], [["a"]]⟩ ⟨0, 0⟩) ∧
    HeapExtends ⟨[[6]], [["a"]]⟩
      (combineH ⟨[[6]], [["a"]]⟩ ⟨0, 0⟩ ⟨0, 0⟩ "+" ⟨0, 0⟩).1 ∧
    (BuilderRef.rs ⟨0, 0⟩ < List.length [["a"]] →
      stringifyH (combineH ⟨[[6]], [["a"]]⟩ ⟨0, 0⟩ ⟨0, 0⟩ "+" ⟨0, 0⟩).1
          ⟨0, 0⟩ =
        stringifyH ⟨[[6]], [["a"]]⟩ ⟨0, 0⟩) :=
  C5_no_mutation ⟨[[6]], [["a"]]⟩ ⟨0, 0⟩ ⟨0, 0⟩ ⟨0, 0⟩ (SelOp.element "b") "+"
